import Mathlib

/-!
Shallow embedding of `src/server/trpc/routers/protected.ts` (the tRPC
protected router of OsmanthusBeer/api-beer): Teams, Projects (owned by a
Team), APIs (owned by a Project), membership rows, and the exposed
operations `projectList`, `projectCreate`, `projectShow`, `projectUpdate`,
`projectDelete`, `teamList`, `teamCreate`, `teamShow`, `apiList`,
`apiCreate`.

Modelling conventions:
* The Prisma store is a record of lists (`DB`); `findFirst`/`findMany`
  become `List.find?`/`List.filter` over those lists in insertion order.
* Prisma-generated ids are modelled as consecutive naturals (`DB.nextId`);
  id values are opaque to the router, so `Nat` stands in for the cuid
  strings.
* Enum-valued columns (`Role`, `ProjectVisibility`) are stored as the
  strings Prisma writes to the database ("Owner", "Maintainer", "Member",
  "PUBLIC", "PRIVATE"), so that the router's checks on them (the
  `includes` test of `apiCreate`, the `toLowerCase` of `projectShow`)
  keep their source-level behaviour, including on values outside the
  enumeration.
* Zod input validation runs before each handler; it is modelled as a
  boolean check at the head of each operation, failing with
  `Err.validation`.  `z.string().min(a).max(b)` is length bounds on the
  string.  For `apiCreate`, membership of `method`/`status` in the Prisma
  enums is not modelled (the enum value sets are outside `src/`); only
  the length bounds on the optional `name`/`description` are.
* `throw new Error('Project not found')` becomes `Err.notFound`;
  `throw new Error('Permission denied')` becomes `Err.permissionDenied`.
  The two are distinct constructors because the two thrown errors are
  distinguishable to the caller.
* Opaque payload fields of an API (`params`, `body`, `headers`,
  `authorization`, scripts) are carried as uninterpreted strings.
-/

/-- Outcomes a handler can surface to the caller, beyond a value. -/
inductive Err where
  /-- zod schema rejection (input outside declared bounds). -/
  | validation
  /-- the thrown `Error('Project not found')`. -/
  | notFound
  /-- the thrown `Error('Permission denied')`. -/
  | permissionDenied
  /-- an `InvalidRole` outcome: named by the spec's role-capability
  contract; no code path in the source produces it. -/
  | invalidRole
deriving DecidableEq, Repr

/-- A row of the `TeamMember` table: (identity, team scope, role). -/
structure TeamMember where
  userId : Nat
  teamId : Nat
  role : String
deriving DecidableEq, Repr

/-- A row of the `ProjectMember` table: (identity, project scope, role). -/
structure ProjectMember where
  userId : Nat
  projectId : Nat
  role : String
deriving DecidableEq, Repr

/-- A row of the `Team` table. -/
structure Team where
  id : Nat
  name : String
  description : Option String
deriving DecidableEq, Repr

/-- A row of the `Project` table. -/
structure Project where
  id : Nat
  name : String
  description : String
  teamId : Nat
  visibility : String
deriving DecidableEq, Repr

/-- A row of the `Api` table (opaque payloads as uninterpreted strings). -/
structure Api where
  id : Nat
  name : Option String
  description : Option String
  endpoint : String
  method : String
  params : String
  body : String
  headers : String
  authorization : String
  preRequestScript : String
  postResponseScript : String
  tags : List String
  versions : List String
  order : Int
  status : Option String
  projectId : Nat
deriving DecidableEq, Repr

/-- The persistent store: one list per Prisma model, plus the id counter
standing in for Prisma's id generation. -/
structure DB where
  teams : List Team
  projects : List Project
  apis : List Api
  teamMembers : List TeamMember
  projectMembers : List ProjectMember
  nextId : Nat
deriving DecidableEq, Repr

/-- Well-formedness of a store reachable through this router: every id
already allocated is below the id counter. -/
def DB.wf (db : DB) : Prop :=
  (∀ t ∈ db.teams, t.id < db.nextId) ∧
  (∀ p ∈ db.projects, p.id < db.nextId) ∧
  (∀ a ∈ db.apis, a.id < db.nextId) ∧
  (∀ m ∈ db.teamMembers, m.teamId < db.nextId) ∧
  (∀ m ∈ db.projectMembers, m.projectId < db.nextId)

instance (db : DB) : Decidable db.wf := by
  unfold DB.wf; infer_instance

/-- JS `String.prototype.includes` / Prisma `contains` (case-sensitive
substring test), on the character lists of the strings. -/
def strContains (s pat : String) : Bool :=
  decide (pat.data <:+: s.data)

/-- A Prisma filter whose value may be `undefined`: an absent value means
the filter is skipped (matches everything). -/
def optFilter (f : Option α) (p : α → Bool) : Bool :=
  match f with
  | none => true
  | some v => p v

/-- Filter `{ name: { contains: input?.name } }` on a nullable column: an absent
filter matches every row; a present pattern never matches a null column. -/
def optNameContains (column : Option String) (f : Option String) : Bool :=
  match f with
  | none => true
  | some pat =>
    match column with
    | none => false
    | some s => strContains s pat

/-- Predicate `members: { some: { userId: user.id } }` on a project. -/
def someProjectMember (db : DB) (userId pid : Nat) : Bool :=
  db.projectMembers.any fun m => m.userId == userId && m.projectId == pid

/-- Predicate `members: { some: { userId: user.id, role: Owner } }` on a project. -/
def someProjectOwner (db : DB) (userId pid : Nat) : Bool :=
  db.projectMembers.any fun m =>
    m.userId == userId && m.projectId == pid && m.role == "Owner"

/-- Predicate `members: { some: { userId: user.id } }` on a team. -/
def someTeamMember (db : DB) (userId tid : Nat) : Bool :=
  db.teamMembers.any fun m => m.userId == userId && m.teamId == tid

/-- Input of `projectList` (lines 16–23): optional name filter, required
teamId, optional visibility filter. -/
structure ProjectListInput where
  name : Option String
  teamId : Nat
  visibility : Option String
deriving Repr

/-- Handler `projectList` (lines 16–38): `findMany` over projects with the
conjunction of the name/teamId/visibility filters and the caller's
membership. -/
def projectList (db : DB) (userId : Nat) (input : ProjectListInput) :
    List Project :=
  db.projects.filter fun p =>
    optFilter input.name (fun pat => strContains p.name pat) &&
    p.teamId == input.teamId &&
    optFilter input.visibility (fun v => p.visibility == v) &&
    someProjectMember db userId p.id

/-- Input of `projectCreate` (lines 40–47). -/
structure ProjectCreateInput where
  name : String
  description : String
  teamId : Nat
  visibility : String
deriving Repr

/-- Schema `z.enum` / `z.nativeEnum($Enums.ProjectVisibility)`. -/
def validVisibility (v : String) : Bool :=
  v == "PUBLIC" || v == "PRIVATE"

/-- The zod schema of `projectCreate`: name 3–50 chars, description 3–255
chars, visibility in the `ProjectVisibility` enum. -/
def validProjectCreate (i : ProjectCreateInput) : Bool :=
  3 ≤ i.name.length && i.name.length ≤ 50 &&
  3 ≤ i.description.length && i.description.length ≤ 255 &&
  validVisibility i.visibility

/-- Handler `projectCreate` (lines 39–66): after validation, one `create` call
inserting the project together with its nested Owner membership for the
caller — a single atomic store operation. -/
def projectCreate (db : DB) (userId : Nat) (i : ProjectCreateInput) :
    Except Err Project × DB :=
  if validProjectCreate i then
    let pid := db.nextId
    let p : Project :=
      { id := pid, name := i.name, description := i.description,
        teamId := i.teamId, visibility := i.visibility }
    let m : ProjectMember := { userId := userId, projectId := pid, role := "Owner" }
    (.ok p,
     { db with projects := db.projects ++ [p],
               projectMembers := db.projectMembers ++ [m],
               nextId := db.nextId + 1 })
  else (.error .validation, db)

/-- JS `toLowerCase` on one character, for the ASCII range the stored
enum values use. -/
def lowerC (c : Char) : Char :=
  if c.isUpper then Char.ofNat (c.toNat + 32) else c

/-- JS `String.prototype.toLowerCase`, restricted to ASCII case mapping —
sufficient for the stored `ProjectVisibility` values it is applied to. -/
def lowerStr (s : String) : String := ⟨s.data.map lowerC⟩

/-- Handler `projectShow` (lines 67–86): `findFirst` by id filtered by the
caller's membership; absent row throws `Project not found`; the found
row is returned with `visibility` lowercased. -/
def projectShow (db : DB) (userId : Nat) (id : Nat) : Except Err Project :=
  match db.projects.find? (fun p =>
      p.id == id && someProjectMember db userId p.id) with
  | none => .error .notFound
  | some p => .ok { p with visibility := lowerStr p.visibility }

/-- Input of `projectUpdate` (lines 88–95). -/
structure ProjectUpdateInput where
  id : Nat
  name : String
  description : String
  visibility : String
deriving Repr

/-- The zod schema of `projectUpdate`: same bounds as `projectCreate`. -/
def validProjectUpdate (i : ProjectUpdateInput) : Bool :=
  3 ≤ i.name.length && i.name.length ≤ 50 &&
  3 ≤ i.description.length && i.description.length ≤ 255 &&
  validVisibility i.visibility

/-- Handler `projectUpdate` (lines 87–114): filtered update — the row must match
the id and an Owner membership of the caller; zero rows affected throws
`Project not found`, otherwise the matching rows get the new fields and
the handler returns `true`. -/
def projectUpdate (db : DB) (userId : Nat) (i : ProjectUpdateInput) :
    Except Err Bool × DB :=
  if validProjectUpdate i then
    if db.projects.any (fun p => p.id == i.id && someProjectOwner db userId p.id) then
      (.ok true,
       { db with projects := db.projects.map fun p =>
           if p.id == i.id && someProjectOwner db userId p.id then
             { p with name := i.name, description := i.description,
                      visibility := i.visibility }
           else p })
    else (.error .notFound, db)
  else (.error .validation, db)

/-- Handler `projectDelete` (lines 115–133): filtered delete — the row must match
the id and an Owner membership of the caller; zero rows affected throws
`Project not found`, otherwise the matching rows are removed and the
handler returns `true`. -/
def projectDelete (db : DB) (userId : Nat) (id : Nat) :
    Except Err Bool × DB :=
  if db.projects.any (fun p => p.id == id && someProjectOwner db userId p.id) then
    (.ok true,
     { db with projects := db.projects.filter fun p =>
         !(p.id == id && someProjectOwner db userId p.id) })
  else (.error .notFound, db)

/-- Handler `teamList` (lines 135–147): `findMany` over teams filtered by the
caller's membership. -/
def teamList (db : DB) (userId : Nat) : List Team :=
  db.teams.filter fun t => someTeamMember db userId t.id

/-- Input of `teamCreate` (lines 149–154). -/
structure TeamCreateInput where
  name : String
  description : Option String
deriving Repr

/-- The zod schema of `teamCreate`: name 3–50 chars, description optional. -/
def validTeamCreate (i : TeamCreateInput) : Bool :=
  3 ≤ i.name.length && i.name.length ≤ 50

/-- Handler `teamCreate` (lines 148–171): after validation, one `create` call
inserting the team together with its nested Owner membership for the
caller. -/
def teamCreate (db : DB) (userId : Nat) (i : TeamCreateInput) :
    Except Err Team × DB :=
  if validTeamCreate i then
    let tid := db.nextId
    let t : Team := { id := tid, name := i.name, description := i.description }
    let m : TeamMember := { userId := userId, teamId := tid, role := "Owner" }
    (.ok t,
     { db with teams := db.teams ++ [t],
               teamMembers := db.teamMembers ++ [m],
               nextId := db.nextId + 1 })
  else (.error .validation, db)

/-- Handler `teamShow` (lines 172–190): `findFirst` by id filtered by the
caller's membership; absent row throws (the message is `Project not
found` even for teams). -/
def teamShow (db : DB) (userId : Nat) (id : Nat) : Except Err Team :=
  match db.teams.find? (fun t => t.id == id && someTeamMember db userId t.id) with
  | none => .error .notFound
  | some t => .ok t

/-- Input of `apiList` (lines 193–197). -/
structure ApiListInput where
  name : Option String
  projectId : Nat
deriving Repr

/-- Handler `apiList` (lines 192–211): `findMany` over APIs filtered by name and
projectId only — the `user` binding is commented out in the source, so
no membership filter is applied. -/
def apiList (db : DB) (userId : Nat) (input : ApiListInput) : List Api :=
  db.apis.filter fun a =>
    optNameContains a.name input.name && a.projectId == input.projectId

/-- Input of `apiCreate` (lines 213–230). -/
structure ApiCreateInput where
  name : Option String
  description : Option String
  endpoint : String
  method : String
  params : String
  body : String
  headers : String
  authorization : String
  preRequestScript : String
  postResponseScript : String
  tags : List String
  versions : List String
  order : Int
  status : Option String
  projectId : Nat
deriving Repr

/-- The modelled zod bounds of `apiCreate`: optional name 3–50 chars and
optional description 3–255 chars (the enum checks on `method`/`status`
are outside `src/` and not modelled). -/
def validApiCreate (i : ApiCreateInput) : Bool :=
  optFilter i.name (fun n => 3 ≤ n.length && n.length ≤ 50) &&
  optFilter i.description (fun d => 3 ≤ d.length && d.length ≤ 255)

/-- The role test of `apiCreate` (lines 243–247):
`[Owner, Maintainer].includes(projectMember.role)`; any other role value
throws `Permission denied`. -/
def roleCheck (role : String) : Except Err Unit :=
  if role == "Owner" || role == "Maintainer" then .ok ()
  else .error .permissionDenied

/-- The permission step of `apiCreate` (lines 236–247): `findFirst` over
`ProjectMember` filtered by the caller's id only (not by the target
project); an absent row throws `Project not found`, then `roleCheck` on
the row found. -/
def apiCreateAuth (db : DB) (userId : Nat) : Except Err Unit :=
  match db.projectMembers.find? (fun m => m.userId == userId) with
  | none => .error .notFound
  | some pm => roleCheck pm.role

/-- The API row inserted by `apiCreate` (lines 249–253): the input spread
verbatim, with a fresh id. -/
def mkApi (db : DB) (i : ApiCreateInput) : Api :=
  { id := db.nextId, name := i.name, description := i.description,
    endpoint := i.endpoint, method := i.method, params := i.params,
    body := i.body, headers := i.headers, authorization := i.authorization,
    preRequestScript := i.preRequestScript,
    postResponseScript := i.postResponseScript, tags := i.tags,
    versions := i.versions, order := i.order, status := i.status,
    projectId := i.projectId }

/-- Handler `apiCreate` (lines 212–255): validation, then the permission step,
then the insert. -/
def apiCreate (db : DB) (userId : Nat) (i : ApiCreateInput) :
    Except Err Api × DB :=
  if validApiCreate i then
    match apiCreateAuth db userId with
    | .error e => (.error e, db)
    | .ok () =>
      let a := mkApi db i
      (.ok a, { db with apis := db.apis ++ [a], nextId := db.nextId + 1 })
  else (.error .validation, db)

/-- The error component of an outcome, when there is one. -/
def exceptErr : Except Err α → Option Err
  | .error e => some e
  | .ok _ => none

/-! ### Concrete fixtures used by counterexamples and witnesses -/

/-- A sample stored API row under project 1. -/
def apiA : Api :=
  { id := 2, name := some "ping", description := none, endpoint := "/ping",
    method := "GET", params := "", body := "", headers := "",
    authorization := "", preRequestScript := "", postResponseScript := "",
    tags := [], versions := [], order := 0, status := none, projectId := 1 }

/-- A sample stored project under team 0. -/
def projectA : Project :=
  { id := 1, name := "proj", description := "desc", teamId := 0,
    visibility := "PRIVATE" }

/-- A sample stored team. -/
def teamA : Team := { id := 0, name := "team", description := none }

/-- A store where user 7 owns team 0 and project 1, project 1 holds API 2,
and user 42 has no membership anywhere. -/
def dbLeak : DB :=
  { teams := [teamA], projects := [projectA], apis := [apiA],
    teamMembers := [{ userId := 7, teamId := 0, role := "Owner" }],
    projectMembers := [{ userId := 7, projectId := 1, role := "Owner" }],
    nextId := 3 }

/-- A valid `apiCreate` payload targeting project 5. -/
def apiInputA : ApiCreateInput :=
  { name := none, description := none, endpoint := "/x", method := "GET",
    params := "", body := "", headers := "", authorization := "",
    preRequestScript := "", postResponseScript := "", tags := [],
    versions := [], order := 0, status := none, projectId := 5 }

/-- An empty store: project 5 does not exist and user 42 has no
membership. -/
def dbAbsent : DB :=
  { teams := [], projects := [], apis := [], teamMembers := [],
    projectMembers := [], nextId := 0 }

/-- A store where project 5 exists and user 42 is a Member (not Owner or
Maintainer) of it. -/
def dbMemberOnly : DB :=
  { teams := [],
    projects := [{ id := 5, name := "proj5", description := "desc5",
                   teamId := 0, visibility := "PUBLIC" }],
    apis := [], teamMembers := [],
    projectMembers := [{ userId := 42, projectId := 5, role := "Member" }],
    nextId := 6 }

/-- A store where user 42 is Owner of project 5 (the target of
`apiInputA`), but the first `ProjectMember` row of user 42 in insertion
order is a Member row on the unrelated project 9. -/
def dbOwnerShadowed : DB :=
  { teams := [],
    projects := [{ id := 5, name := "proj5", description := "desc5",
                   teamId := 0, visibility := "PUBLIC" },
                 { id := 9, name := "proj9", description := "desc9",
                   teamId := 0, visibility := "PUBLIC" }],
    apis := [], teamMembers := [],
    projectMembers := [{ userId := 42, projectId := 9, role := "Member" },
                       { userId := 42, projectId := 5, role := "Owner" }],
    nextId := 10 }

/-- A store where the single membership of user 7 is Maintainer of
project 1; user 7 has no membership on any other project. -/
def dbMaintainerOnly : DB :=
  { teams := [],
    projects := [{ id := 1, name := "proj1", description := "desc1",
                   teamId := 0, visibility := "PUBLIC" }],
    apis := [], teamMembers := [],
    projectMembers := [{ userId := 7, projectId := 1, role := "Maintainer" }],
    nextId := 2 }

/-! ### Claim theorems -/

/-- C1 counterexample: `apiList` returns API 2 to caller 42, although the
scope of API 2 (project 1) has no membership row for 42 — 42 holds no
membership anywhere in `dbLeak`. -/
theorem apiList_returns_without_membership :
    apiList dbLeak 42 { name := none, projectId := 1 } = [apiA] ∧
    dbLeak.projectMembers.all (fun m => m.userId != 42) = true ∧
    dbLeak.teamMembers.all (fun m => m.userId != 42) = true := by
  decide

/-- C1 (amended): `projectList`, `projectShow`, `teamList` and `teamShow`
never return an entity whose scope has no membership row for the caller;
`apiList` is excluded because it applies no membership filter. -/
theorem show_list_membership_filtered :
    (∀ db userId input p, p ∈ projectList db userId input →
        someProjectMember db userId p.id = true) ∧
    (∀ db userId id p, projectShow db userId id = .ok p →
        someProjectMember db userId p.id = true) ∧
    (∀ db userId t, t ∈ teamList db userId →
        someTeamMember db userId t.id = true) ∧
    (∀ db userId id t, teamShow db userId id = .ok t →
        someTeamMember db userId t.id = true) := by
  refine ⟨?_, ?_, ?_, ?_⟩
  · intro db userId input p hp
    have h := (List.mem_filter.mp hp).2
    simp only [Bool.and_eq_true] at h
    exact h.2
  · intro db userId id p hp
    unfold projectShow at hp
    cases hfind : db.projects.find? (fun q =>
        q.id == id && someProjectMember db userId q.id) with
    | none => rw [hfind] at hp; exact absurd hp (by simp)
    | some q =>
      rw [hfind] at hp
      have hpred := List.find?_some hfind
      simp only [Bool.and_eq_true] at hpred
      have : p = { q with visibility := lowerStr q.visibility } := by
        simpa using hp.symm
      rw [this]
      exact hpred.2
  · intro db userId t ht
    exact (List.mem_filter.mp ht).2
  · intro db userId id t ht
    unfold teamShow at ht
    cases hfind : db.teams.find? (fun s =>
        s.id == id && someTeamMember db userId s.id) with
    | none => rw [hfind] at ht; exact absurd ht (by simp)
    | some s =>
      rw [hfind] at ht
      have hpred := List.find?_some hfind
      simp only [Bool.and_eq_true] at hpred
      have : t = s := by simpa using ht.symm
      rw [this]
      exact hpred.2

/-- C1 witness: the amended theorem applied to `dbLeak` and caller 7, who
is a member of team 0. -/
theorem show_list_membership_filtered_witness :
    teamA ∈ teamList dbLeak 7 ∧ someTeamMember dbLeak 7 teamA.id = true :=
  ⟨by decide, show_list_membership_filtered.2.2.1 dbLeak 7 teamA (by decide)⟩

/-- C3: on any well-formed store and valid input, `projectCreate` and
`teamCreate` produce, in one store step, the entity together with exactly
one membership row for its scope — the caller with role Owner.  The
entity and the membership are written by the single nested `create` call,
so the embedding has no state in which one exists without the other. -/
theorem create_entity_with_owner_membership :
    (∀ db userId i, db.wf → validProjectCreate i = true →
      ∃ p db', projectCreate db userId i = (.ok p, db') ∧
        p ∈ db'.projects ∧
        db'.projectMembers.filter (fun m => m.projectId == p.id) =
          [{ userId := userId, projectId := p.id, role := "Owner" }]) ∧
    (∀ db userId i, db.wf → validTeamCreate i = true →
      ∃ t db', teamCreate db userId i = (.ok t, db') ∧
        t ∈ db'.teams ∧
        db'.teamMembers.filter (fun m => m.teamId == t.id) =
          [{ userId := userId, teamId := t.id, role := "Owner" }]) := by
  constructor
  · intro db userId i hwf hvalid
    refine ⟨{ id := db.nextId, name := i.name, description := i.description,
              teamId := i.teamId, visibility := i.visibility },
            { db with
                projects := db.projects ++
                  [{ id := db.nextId, name := i.name,
                     description := i.description, teamId := i.teamId,
                     visibility := i.visibility }],
                projectMembers := db.projectMembers ++
                  [{ userId := userId, projectId := db.nextId,
                     role := "Owner" }],
                nextId := db.nextId + 1 }, ?_, ?_, ?_⟩
    · unfold projectCreate
      rw [hvalid]
      rfl
    · simp [List.mem_append]
    · rw [List.filter_append]
      have hold : db.projectMembers.filter
          (fun m => m.projectId == db.nextId) = [] := by
        rw [List.filter_eq_nil_iff]
        intro m hm
        have := hwf.2.2.2.2 m hm
        simp only [beq_iff_eq]
        omega
      rw [hold]
      simp
  · intro db userId i hwf hvalid
    refine ⟨{ id := db.nextId, name := i.name, description := i.description },
            { db with
                teams := db.teams ++
                  [{ id := db.nextId, name := i.name,
                     description := i.description }],
                teamMembers := db.teamMembers ++
                  [{ userId := userId, teamId := db.nextId,
                     role := "Owner" }],
                nextId := db.nextId + 1 }, ?_, ?_, ?_⟩
    · unfold teamCreate
      rw [hvalid]
      rfl
    · simp [List.mem_append]
    · rw [List.filter_append]
      have hold : db.teamMembers.filter
          (fun m => m.teamId == db.nextId) = [] := by
        rw [List.filter_eq_nil_iff]
        intro m hm
        have := hwf.2.2.2.1 m hm
        simp only [beq_iff_eq]
        omega
      rw [hold]
      simp

/-- C3 witness: the theorem applied to `dbLeak`, caller 7 and a concrete
valid project input. -/
theorem create_entity_with_owner_membership_witness :
    dbLeak.wf ∧
    validProjectCreate
      { name := "abc", description := "descr", teamId := 0,
        visibility := "PUBLIC" } = true ∧
    ∃ p db', projectCreate dbLeak 7
        { name := "abc", description := "descr", teamId := 0,
          visibility := "PUBLIC" } = (.ok p, db') ∧
      p ∈ db'.projects ∧
      db'.projectMembers.filter (fun m => m.projectId == p.id) =
        [{ userId := 7, projectId := p.id, role := "Owner" }] :=
  ⟨by decide, by decide,
   create_entity_with_owner_membership.1 dbLeak 7 _ (by decide) (by decide)⟩

/-- If no membership row of the caller on the given project carries role
Owner, the Owner-filtered membership predicate is false. -/
lemma someProjectOwner_eq_false {db : DB} {userId pid : Nat}
    (h : ∀ m ∈ db.projectMembers, m.userId = userId → m.projectId = pid →
      m.role ≠ "Owner") :
    someProjectOwner db userId pid = false := by
  unfold someProjectOwner
  rw [List.any_eq_false]
  intro m hm
  simp only [Bool.and_eq_true, beq_iff_eq, not_and]
  intro h1
  exact h m hm h1.1 h1.2

/-- C4: for a caller holding a Maintainer or Member (and no Owner)
membership on the target project, `projectUpdate` and `projectDelete`
fail with the not-found outcome and return the store unchanged. -/
theorem nonowner_update_delete_denied :
    ∀ db userId i, validProjectUpdate i = true →
    (∃ m ∈ db.projectMembers, m.userId = userId ∧ m.projectId = i.id ∧
        (m.role = "Maintainer" ∨ m.role = "Member")) →
    (∀ m ∈ db.projectMembers, m.userId = userId → m.projectId = i.id →
        m.role ≠ "Owner") →
    projectUpdate db userId i = (.error .notFound, db) ∧
    projectDelete db userId i.id = (.error .notFound, db) := by
  intro db userId i hvalid _hmem hnoowner
  have howner := someProjectOwner_eq_false hnoowner
  have hany : db.projects.any
      (fun p => p.id == i.id && someProjectOwner db userId p.id) = false := by
    rw [List.any_eq_false]
    intro p _hp
    simp only [Bool.and_eq_true, beq_iff_eq, not_and]
    intro hid
    rw [hid, howner]
    simp
  constructor
  · unfold projectUpdate
    rw [hvalid, hany]
    rfl
  · unfold projectDelete
    rw [hany]
    rfl

/-- C4 witness: the theorem applied to `dbMemberOnly`, where user 42 is a
Member (and not Owner) of project 5. -/
theorem nonowner_update_delete_denied_witness :
    projectUpdate dbMemberOnly 42
      { id := 5, name := "abc", description := "descr",
        visibility := "PUBLIC" } = (.error .notFound, dbMemberOnly) ∧
    projectDelete dbMemberOnly 42 5 = (.error .notFound, dbMemberOnly) :=
  nonowner_update_delete_denied dbMemberOnly 42
    { id := 5, name := "abc", description := "descr",
      visibility := "PUBLIC" }
    (by decide)
    ⟨{ userId := 42, projectId := 5, role := "Member" }, by decide, by decide,
     by decide, Or.inr (by decide)⟩
    (by decide)

/-- C2: evaluation of `apiCreate` at the failing input.  In
`dbOwnerShadowed`, user 42 is Owner of project 5 — the target of
`apiInputA` — yet the call is denied, because the permission step reads
the caller's first `ProjectMember` row in the store (a Member row on the
unrelated project 9) instead of a row scoped to `input.projectId`. -/
theorem apiCreate_denies_owner_of_target :
    ((⟨42, 5, "Owner"⟩ : ProjectMember) ∈ dbOwnerShadowed.projectMembers) ∧
    apiInputA.projectId = 5 ∧
    (apiCreate dbOwnerShadowed 42 apiInputA).1 = .error .permissionDenied :=
  ⟨by decide, rfl, rfl⟩

/-- C5 counterexample: for `apiCreate`, the outcome when the target
project does not exist and the caller has no membership (`dbAbsent`) is
the not-found error, while the outcome when the project exists but the
caller's role is insufficient (`dbMemberOnly`) is the distinct
permission-denied error — the two denials do not collapse to one
outcome. -/
theorem apiCreate_denials_distinguishable :
    (apiCreate dbAbsent 42 apiInputA).1 = .error .notFound ∧
    (apiCreate dbMemberOnly 42 apiInputA).1 = .error .permissionDenied ∧
    Err.notFound ≠ Err.permissionDenied :=
  ⟨rfl, rfl, by decide⟩

/-- C5 (amended): for `projectShow`, `projectUpdate`, `projectDelete`
and `teamShow`, every failure on schema-valid input is the one
not-found outcome, so a missing resource and a denied access are
indistinguishable; `apiCreate` is excluded, as it surfaces a distinct
permission-denied error when the consulted membership row has an
insufficient role. -/
theorem denial_collapses_for_project_team_ops :
    (∀ db userId id, projectShow db userId id = .error Err.notFound ∨
        ∃ p, projectShow db userId id = .ok p) ∧
    (∀ db userId i, validProjectUpdate i = true →
        (projectUpdate db userId i).1 = .error Err.notFound ∨
        (projectUpdate db userId i).1 = .ok true) ∧
    (∀ db userId id, (projectDelete db userId id).1 = .error Err.notFound ∨
        (projectDelete db userId id).1 = .ok true) ∧
    (∀ db userId id, teamShow db userId id = .error Err.notFound ∨
        ∃ t, teamShow db userId id = .ok t) := by
  refine ⟨?_, ?_, ?_, ?_⟩
  · intro db userId id
    unfold projectShow
    cases db.projects.find? (fun p =>
        p.id == id && someProjectMember db userId p.id) with
    | none => exact Or.inl rfl
    | some p => exact Or.inr ⟨_, rfl⟩
  · intro db userId i hvalid
    unfold projectUpdate
    rw [hvalid]
    cases hany : db.projects.any
        (fun p => p.id == i.id && someProjectOwner db userId p.id) with
    | false => exact Or.inl rfl
    | true => exact Or.inr rfl
  · intro db userId id
    unfold projectDelete
    cases hany : db.projects.any
        (fun p => p.id == id && someProjectOwner db userId p.id) with
    | false => exact Or.inl rfl
    | true => exact Or.inr rfl
  · intro db userId id
    unfold teamShow
    cases db.teams.find? (fun t =>
        t.id == id && someTeamMember db userId t.id) with
    | none => exact Or.inl rfl
    | some t => exact Or.inr ⟨_, rfl⟩

/-- C5 witness: the amended theorem's `projectUpdate` part applied to the
empty store, where the update fails with the not-found outcome. -/
theorem denial_collapses_for_project_team_ops_witness :
    (projectUpdate dbAbsent 42
        { id := 5, name := "abc", description := "descr",
          visibility := "PUBLIC" }).1 = .error Err.notFound ∨
    (projectUpdate dbAbsent 42
        { id := 5, name := "abc", description := "descr",
          visibility := "PUBLIC" }).1 = .ok true :=
  denial_collapses_for_project_team_ops.2.1 dbAbsent 42
    { id := 5, name := "abc", description := "descr",
      visibility := "PUBLIC" } (by decide)

/-- C6: on any well-formed store, `projectCreate` followed by
`projectShow` on the returned id, as the creator, yields the name and
description just supplied and the supplied visibility lowercased (the
`toLowerCase` normalization of `projectShow`). -/
theorem projectCreate_projectShow_roundtrip :
    ∀ db userId i, db.wf → validProjectCreate i = true →
    ∃ p db', projectCreate db userId i = (.ok p, db') ∧
      ∃ q, projectShow db' userId p.id = .ok q ∧
        q.name = i.name ∧ q.description = i.description ∧
        q.visibility = lowerStr i.visibility := by
  intro db userId i hwf hvalid
  refine ⟨{ id := db.nextId, name := i.name, description := i.description,
            teamId := i.teamId, visibility := i.visibility },
          { db with
              projects := db.projects ++
                [{ id := db.nextId, name := i.name,
                   description := i.description, teamId := i.teamId,
                   visibility := i.visibility }],
              projectMembers := db.projectMembers ++
                [{ userId := userId, projectId := db.nextId,
                   role := "Owner" }],
              nextId := db.nextId + 1 }, ?_, ?_⟩
  · unfold projectCreate
    rw [hvalid]
    rfl
  · set db' : DB :=
      { db with
          projects := db.projects ++
            [{ id := db.nextId, name := i.name,
               description := i.description, teamId := i.teamId,
               visibility := i.visibility }],
          projectMembers := db.projectMembers ++
            [{ userId := userId, projectId := db.nextId,
               role := "Owner" }],
          nextId := db.nextId + 1 } with hdb'
    have hmem : someProjectMember db' userId db.nextId = true := by
      unfold someProjectMember
      rw [List.any_eq_true]
      refine ⟨{ userId := userId, projectId := db.nextId, role := "Owner" },
              ?_, by simp⟩
      rw [hdb']
      simp
    unfold projectShow
    have hold : db.projects.find? (fun p =>
        p.id == db.nextId && someProjectMember db' userId p.id) = none := by
      rw [List.find?_eq_none]
      intro p hp
      have := hwf.2.1 p hp
      simp only [Bool.and_eq_true, beq_iff_eq, not_and]
      omega
    have hfind : db'.projects.find? (fun p =>
        p.id == db.nextId && someProjectMember db' userId p.id) =
        some { id := db.nextId, name := i.name,
               description := i.description, teamId := i.teamId,
               visibility := i.visibility } := by
      rw [hdb']
      simp only [List.find?_append, hold]
      · simp only [List.find?]
        rw [hdb'] at hmem
        simp [hmem]
    rw [hfind]
    exact ⟨_, rfl, rfl, rfl, rfl⟩

/-- C6 witness: the theorem applied to `dbLeak`, caller 7 and a concrete
valid project input with visibility PRIVATE. -/
theorem projectCreate_projectShow_roundtrip_witness :
    dbLeak.wf ∧
    validProjectCreate
      { name := "abc", description := "ddd", teamId := 0,
        visibility := "PRIVATE" } = true ∧
    ∃ p db', projectCreate dbLeak 7
        { name := "abc", description := "ddd", teamId := 0,
          visibility := "PRIVATE" } = (.ok p, db') ∧
      ∃ q, projectShow db' 7 p.id = .ok q ∧
        q.name = "abc" ∧ q.description = "ddd" ∧
        q.visibility = lowerStr "PRIVATE" :=
  ⟨by decide, by decide,
   projectCreate_projectShow_roundtrip dbLeak 7 _ (by decide) (by decide)⟩

/-- C7 counterexample: on the role value "Admin", which is outside the
enumerated set, the role test of `apiCreate` produces the generic
permission-denied outcome — it defaults to deny instead of raising an
`InvalidRole` error. -/
theorem roleCheck_unknown_role_denies :
    roleCheck "Admin" = .error .permissionDenied ∧
    roleCheck "Admin" ≠ .error .invalidRole := by
  constructor
  · rfl
  · intro h
    exact absurd (Except.error.inj h) (by decide)

/-- C7 (amended): the role test of `apiCreate` accepts exactly Owner and
Maintainer and maps every other role value — Member and any value
outside the enumerated set alike — to the permission-denied outcome; no
role value produces an `InvalidRole` error. -/
theorem roleCheck_defaults_to_deny :
    (∀ role, roleCheck role = .ok () ↔
        (role = "Owner" ∨ role = "Maintainer")) ∧
    (∀ role, role ≠ "Owner" → role ≠ "Maintainer" →
        roleCheck role = .error .permissionDenied) ∧
    (∀ role, roleCheck role ≠ .error .invalidRole) := by
  refine ⟨?_, ?_, ?_⟩
  · intro role
    unfold roleCheck
    constructor
    · intro h
      by_contra hc
      push_neg at hc
      rw [if_neg ?_] at h
      · exact absurd h (by simp)
      · simp only [Bool.or_eq_true, beq_iff_eq]
        push_neg
        exact hc
    · intro h
      rw [if_pos ?_]
      simp only [Bool.or_eq_true, beq_iff_eq]
      exact h
  · intro role h1 h2
    unfold roleCheck
    rw [if_neg ?_]
    simp only [Bool.or_eq_true, beq_iff_eq]
    push_neg
    exact ⟨h1, h2⟩
  · intro role
    unfold roleCheck
    by_cases h : (role == "Owner" || role == "Maintainer") = true
    · rw [if_pos h]
      simp
    · rw [if_neg h]
      intro hc
      exact absurd (Except.error.inj hc) (by decide)

/-- C7 witness: the amended theorem applied to the out-of-enumeration
role value "Admin". -/
theorem roleCheck_defaults_to_deny_witness :
    roleCheck "Admin" = .error .permissionDenied :=
  roleCheck_defaults_to_deny.2.1 "Admin" (by decide) (by decide)

/-- C8: a `projectCreate` or `projectUpdate` input whose name is shorter
than 3 or longer than 50 characters, or whose description is shorter
than 3 or longer than 255 characters, fails with the validation outcome
and leaves the store untouched, for every store and caller — the check
runs before any membership lookup or store operation. -/
theorem invalid_bounds_rejected_before_store :
    (∀ db userId i, (i.name.length < 3 ∨ 50 < i.name.length ∨
        i.description.length < 3 ∨ 255 < i.description.length) →
      projectCreate db userId i = (.error .validation, db)) ∧
    (∀ db userId i, (i.name.length < 3 ∨ 50 < i.name.length ∨
        i.description.length < 3 ∨ 255 < i.description.length) →
      projectUpdate db userId i = (.error .validation, db)) := by
  constructor
  · intro db userId i hbad
    have hinvalid : validProjectCreate i = false := by
      unfold validProjectCreate
      simp only [Bool.and_eq_false_iff, decide_eq_false_iff_not, not_le]
      omega
    unfold projectCreate
    rw [hinvalid]
    rfl
  · intro db userId i hbad
    have hinvalid : validProjectUpdate i = false := by
      unfold validProjectUpdate
      simp only [Bool.and_eq_false_iff, decide_eq_false_iff_not, not_le]
      omega
    unfold projectUpdate
    rw [hinvalid]
    rfl

/-- C8 witness: the theorem applied to a two-character name. -/
theorem invalid_bounds_rejected_before_store_witness :
    projectCreate dbLeak 7
      { name := "ab", description := "ddd", teamId := 0,
        visibility := "PUBLIC" } = (.error .validation, dbLeak) :=
  invalid_bounds_rejected_before_store.1 dbLeak 7
    { name := "ab", description := "ddd", teamId := 0,
      visibility := "PUBLIC" }
    (Or.inl (by decide))

/-- C9: `projectShow` returns a stored project with only its visibility
replaced by the lowercase form of the stored value, while `projectList`
returns stored rows unchanged (the stored, uppercase visibility
included). -/
theorem projectShow_lowercases_visibility :
    (∀ db userId id q, projectShow db userId id = .ok q →
      ∃ p, p ∈ db.projects ∧ p.id = id ∧
        q = { p with visibility := lowerStr p.visibility }) ∧
    (∀ db userId input p, p ∈ projectList db userId input →
      p ∈ db.projects) := by
  constructor
  · intro db userId id q hq
    unfold projectShow at hq
    cases hfind : db.projects.find? (fun p =>
        p.id == id && someProjectMember db userId p.id) with
    | none => rw [hfind] at hq; exact absurd hq (by simp)
    | some p =>
      rw [hfind] at hq
      have hpred := List.find?_some hfind
      simp only [Bool.and_eq_true, beq_iff_eq] at hpred
      refine ⟨p, List.mem_of_find?_eq_some hfind, hpred.1, ?_⟩
      simpa using hq.symm
  · intro db userId input p hp
    exact (List.mem_filter.mp hp).1

/-- C9 witness: `projectShow` on `dbMemberOnly` returns project 5 with
its stored visibility "PUBLIC" lowercased to "public". -/
theorem projectShow_lowercases_visibility_witness :
    ∃ p, p ∈ dbMemberOnly.projects ∧ p.id = 5 ∧
      ({ id := 5, name := "proj5", description := "desc5", teamId := 0,
         visibility := "public" } : Project) =
        { p with visibility := lowerStr p.visibility } :=
  projectShow_lowercases_visibility.1 dbMemberOnly 42 5
    { id := 5, name := "proj5", description := "desc5", teamId := 0,
      visibility := "public" } rfl

/-- The role test accepts a row whose role is Owner or Maintainer. -/
lemma roleCheck_eq_ok {role : String}
    (h : role = "Owner" ∨ role = "Maintainer") : roleCheck role = .ok () := by
  unfold roleCheck
  rw [if_pos ?_]
  simp only [Bool.or_eq_true, beq_iff_eq]
  exact h

/-- The role test denies a row whose role is neither Owner nor
Maintainer. -/
lemma roleCheck_eq_denied {role : String} (h1 : role ≠ "Owner")
    (h2 : role ≠ "Maintainer") :
    roleCheck role = .error .permissionDenied := by
  unfold roleCheck
  rw [if_neg ?_]
  simp only [Bool.or_eq_true, beq_iff_eq]
  push_neg
  exact ⟨h1, h2⟩

/-- C10: the authorization outcome of `apiCreate` does not depend on
`input.projectId`: (1) the error component of the result is the same for
any two target project ids; (2) whenever the first `ProjectMember` row
of the caller has role Owner or Maintainer, the call succeeds for every
target project id, membership there or not; (3) whenever that first row
has role Member, the call is denied with permission-denied, whatever
other rows — including an Owner row on the target — the caller holds. -/
theorem apiCreate_ignores_projectId :
    (∀ (db : DB) (userId : Nat) (i : ApiCreateInput) (pid1 pid2 : Nat),
      exceptErr (apiCreate db userId { i with projectId := pid1 }).1 =
      exceptErr (apiCreate db userId { i with projectId := pid2 }).1) ∧
    (∀ db userId i m, validApiCreate i = true →
      db.projectMembers.find? (fun r => r.userId == userId) = some m →
      (m.role = "Owner" ∨ m.role = "Maintainer") →
      (apiCreate db userId i).1 = .ok (mkApi db i)) ∧
    (∀ db userId i m, validApiCreate i = true →
      db.projectMembers.find? (fun r => r.userId == userId) = some m →
      m.role = "Member" →
      (apiCreate db userId i).1 = .error .permissionDenied) := by
  refine ⟨?_, ?_, ?_⟩
  · intro db userId i pid1 pid2
    have hv1 : validApiCreate { i with projectId := pid1 } =
        validApiCreate i := rfl
    have hv2 : validApiCreate { i with projectId := pid2 } =
        validApiCreate i := rfl
    unfold apiCreate
    rw [hv1, hv2]
    cases hvalid : validApiCreate i with
    | false => simp
    | true =>
      simp only [if_pos rfl]
      cases apiCreateAuth db userId with
      | error e => rfl
      | ok u => cases u; rfl
  · intro db userId i m hvalid hfind hrole
    have hauth : apiCreateAuth db userId = .ok () := by
      unfold apiCreateAuth
      rw [hfind]
      exact roleCheck_eq_ok hrole
    unfold apiCreate
    rw [hvalid, hauth]
    rfl
  · intro db userId i m hvalid hfind hrole
    have hauth : apiCreateAuth db userId = .error .permissionDenied := by
      unfold apiCreateAuth
      rw [hfind]
      exact roleCheck_eq_denied (by rw [hrole]; decide) (by rw [hrole]; decide)
    unfold apiCreate
    rw [hvalid, hauth]
    rfl

/-- C10 witness: part (2) applied to `dbMaintainerOnly` and the input
`apiInputA`, whose target project 5 has no membership row for caller 7 —
the only membership of 7 is Maintainer of project 1, and the call
succeeds. -/
theorem apiCreate_ignores_projectId_witness :
    (apiCreate dbMaintainerOnly 7 apiInputA).1 =
      .ok (mkApi dbMaintainerOnly apiInputA) :=
  apiCreate_ignores_projectId.2.1 dbMaintainerOnly 7 apiInputA
    { userId := 7, projectId := 1, role := "Maintainer" }
    (by decide) (by decide) (Or.inr (by decide))
